import Mathlib

/-!
Verification of the BV-BRC Go SDK data-query engine (`api/query.go`,
`api/client.go`): the query model, the RQL encoder, the `Content-Range`
parser, the paginated retrieval loops and the retry transport, shallowly
embedded in Lean.  Go strings are modelled as Lean `String`s (the code
handles them as UTF-8 byte sequences; the byte-level escapers below work
on the UTF-8 bytes of each character, which agrees with Go's byte-wise
processing on every valid UTF-8 string).  Go `int` is modelled as `Int`;
none of the verified scenarios approach 64-bit overflow, and the one
place the code's own behaviour depends on overflow (`strconv.Atoi`) is
modelled with its clamping behaviour made explicit.
-/

namespace BVBRC

/-! ## Query model (api/query.go) -/

/-- Go: `type FilterOp string` with constants `OpEq .. OpIn`. -/
abbrev FilterOp := String

def OpEq : FilterOp := "eq"
def OpNe : FilterOp := "ne"
def OpLt : FilterOp := "lt"
def OpLe : FilterOp := "le"
def OpGt : FilterOp := "gt"
def OpGe : FilterOp := "ge"
def OpIn : FilterOp := "in"

/-- Go: `type Filter struct { Op FilterOp; Field string; Value string; Values []string }`. -/
structure Filter where
  Op : FilterOp
  Field : String
  Value : String
  Values : List String
deriving DecidableEq, Repr

/-- Go: `type SortSpec struct { Field string; Descending bool }`. -/
structure SortSpec where
  Field : String
  Descending : Bool
deriving DecidableEq, Repr

/-- Go: `type Query struct { ... }` (value view; the aliasing-aware heap
model used for the `Clone` claim is further below). -/
structure Query where
  SelectFields : List String
  Filters : List Filter
  RequiredFields : List String
  Keyword : String
  SortSpecs : List SortSpec
  LimitValue : Int
deriving DecidableEq, Repr

/-- Go: `NewQuery() *Query { return &Query{} }` — all fields zero. -/
def NewQuery : Query := ⟨[], [], [], "", [], 0⟩

def Query.Select (q : Query) (fields : List String) : Query :=
  { q with SelectFields := q.SelectFields ++ fields }

def Query.Eq (q : Query) (field value : String) : Query :=
  { q with Filters := q.Filters ++ [⟨OpEq, field, value, []⟩] }

def Query.Ne (q : Query) (field value : String) : Query :=
  { q with Filters := q.Filters ++ [⟨OpNe, field, value, []⟩] }

def Query.Lt (q : Query) (field value : String) : Query :=
  { q with Filters := q.Filters ++ [⟨OpLt, field, value, []⟩] }

def Query.Le (q : Query) (field value : String) : Query :=
  { q with Filters := q.Filters ++ [⟨OpLe, field, value, []⟩] }

def Query.Gt (q : Query) (field value : String) : Query :=
  { q with Filters := q.Filters ++ [⟨OpGt, field, value, []⟩] }

def Query.Ge (q : Query) (field value : String) : Query :=
  { q with Filters := q.Filters ++ [⟨OpGe, field, value, []⟩] }

def Query.In (q : Query) (field : String) (values : List String) : Query :=
  { q with Filters := q.Filters ++ [⟨OpIn, field, "", values⟩] }

def Query.Required (q : Query) (fields : List String) : Query :=
  { q with RequiredFields := q.RequiredFields ++ fields }

def Query.WithKeyword (q : Query) (keyword : String) : Query :=
  { q with Keyword := keyword }

def Query.Sort (q : Query) (field : String) (descending : Bool) : Query :=
  { q with SortSpecs := q.SortSpecs ++ [⟨field, descending⟩] }

def Query.Limit (q : Query) (n : Int) : Query :=
  { q with LimitValue := n }

/-- Go: `HasFilters()` — true iff filters, required fields or keyword present. -/
def Query.HasFilters (q : Query) : Bool :=
  !q.Filters.isEmpty || !q.RequiredFields.isEmpty || q.Keyword != ""

/-- Go: `Clone()` on the value view (field-by-field copy).  The sharing
behaviour of the real Go `Clone` is analysed on the heap model below. -/
def Query.Clone (q : Query) : Query :=
  ⟨q.SelectFields, q.Filters, q.RequiredFields, q.Keyword, q.SortSpecs, q.LimitValue⟩

/-! ## RQL value encoder (api/query.go, `encodeRQLValue`)

Go's `url.QueryEscape` keeps ASCII alphanumerics and `-`, `_`, `.`, `~`,
turns a space into `+`, and percent-encodes every other byte with
uppercase hex digits.  `encodeRQLValue` then replaces every `+` of the
escaped text by `%20` (`strings.ReplaceAll` with a one-character pattern,
hence a character-wise substitution). -/

/-- Hex digit from Go's `upperhex = "0123456789ABCDEF"` table. -/
def upperHexDigit (n : Nat) : Char :=
  if n < 10 then Char.ofNat (48 + n) else Char.ofNat (65 + (n - 10))

/-- `%XX` percent-encoding of one byte. -/
def percentByte (b : Nat) : List Char :=
  ['%', upperHexDigit (b / 16), upperHexDigit (b % 16)]

/-- UTF-8 bytes of one character (Go strings are UTF-8 byte sequences). -/
def utf8Bytes (c : Char) : List Nat :=
  let n := c.toNat
  if n < 128 then [n]
  else if n < 2048 then [192 + n / 64, 128 + n % 64]
  else if n < 65536 then [224 + n / 4096, 128 + (n / 64) % 64, 128 + n % 64]
  else [240 + n / 262144, 128 + (n / 4096) % 64, 128 + (n / 64) % 64, 128 + n % 64]

/-- Bytes Go's `shouldEscape(c, encodeQueryComponent)` leaves unescaped:
ASCII alphanumerics and `-` `_` `.` `~`. -/
def isUnreservedQueryByte (b : Nat) : Bool :=
  (97 ≤ b && b ≤ 122) || (65 ≤ b && b ≤ 90) || (48 ≤ b && b ≤ 57) ||
    b = 45 || b = 95 || b = 46 || b = 126

/-- One byte of Go's `url.QueryEscape` output. -/
def escapeQueryByte (b : Nat) : List Char :=
  if isUnreservedQueryByte b then [Char.ofNat b]
  else if b = 32 then ['+']
  else percentByte b

/-- Go: `url.QueryEscape`. -/
def queryEscape (s : String) : String :=
  String.mk ((s.data.flatMap utf8Bytes).flatMap escapeQueryByte)

/-- Go: `encodeRQLValue` — `QueryEscape` then every `+` replaced by `%20`. -/
def encodeRQLValue (s : String) : String :=
  let encoded := queryEscape s
  String.mk (encoded.data.flatMap fun c => if c = '+' then ['%', '2', '0'] else [c])

/-! ## Query string builder (api/query.go, `Build`) -/

/-- One filter clause of `Build` (the body of the `for _, f := range q.Filters`
loop: the `in` case and the `default` case of the switch). -/
def Filter.clause (f : Filter) : String :=
  if f.Op = OpIn then
    "in(" ++ f.Field ++ ",(" ++ String.intercalate "," (f.Values.map encodeRQLValue) ++ "))"
  else
    f.Op ++ "(" ++ f.Field ++ "," ++ encodeRQLValue f.Value ++ ")"

/-- Go: `Query.Build()` — parts accumulated in order and joined by `&`. -/
def Query.Build (q : Query) : String :=
  let parts : List String := []
  let parts := if q.SelectFields.length > 0 then
      parts ++ ["select(" ++ String.intercalate "," q.SelectFields ++ ")"]
    else parts
  let parts := parts ++ q.Filters.map Filter.clause
  let parts := parts ++ q.RequiredFields.map (fun field => "ne(" ++ field ++ ",)")
  let parts := if q.Keyword ≠ "" then
      parts ++ ["keyword(" ++ encodeRQLValue q.Keyword ++ ")"]
    else parts
  let parts := if q.SortSpecs.length > 0 then
      parts ++ ["sort(" ++ String.intercalate ","
        (q.SortSpecs.map fun s => (if s.Descending then "-" else "+") ++ s.Field) ++ ")"]
    else parts
  String.intercalate "&" parts

/-! ## Content-Range parser (api/client.go, `parseContentRange`)

The Go code matches the regular expression `items\s+(\d+)-(\d+)/(\d+)`
with `FindStringSubmatch` (leftmost match; the greedy `\s+`/`\d+` runs
are maximal because each is followed by a literal outside its class) and
converts the three digit groups with `strconv.Atoi`, discarding errors
(`Atoi` clamps to the largest `int` on overflow and the error is ignored). -/

/-- Go: `type ChunkInfo struct { Start, Next, Count int; IsLast bool }`. -/
structure ChunkInfo where
  Start : Int
  Next : Int
  Count : Int
  IsLast : Bool
deriving DecidableEq, Repr

/-- Go regexp `\s`: `[\t\n\f\r ]`. -/
def isGoWS (c : Char) : Bool :=
  c = '\t' || c = '\n' || c = Char.ofNat 12 || c = '\r' || c = ' '

/-- Attempt to match `items\s+(\d+)-(\d+)/(\d+)` anchored at the head of
the character list, returning the three digit groups. -/
def matchItemsAt (l : List Char) : Option (List Char × List Char × List Char) :=
  if l.take 5 = ['i', 't', 'e', 'm', 's'] then
    let r := l.drop 5
    let ws := r.takeWhile isGoWS
    if ws.isEmpty then none else
    let r := r.dropWhile isGoWS
    let d1 := r.takeWhile Char.isDigit
    if d1.isEmpty then none else
    match r.dropWhile Char.isDigit with
    | '-' :: r2 =>
      let d2 := r2.takeWhile Char.isDigit
      if d2.isEmpty then none else
      match r2.dropWhile Char.isDigit with
      | '/' :: r3 =>
        let d3 := r3.takeWhile Char.isDigit
        if d3.isEmpty then none else some (d1, d2, d3)
      | _ => none
    | _ => none
  else none

/-- Leftmost match of the pattern anywhere in the list
(`FindStringSubmatch` semantics for this pattern). -/
def findItemsMatch : List Char → Option (List Char × List Char × List Char)
  | [] => none
  | c :: rest =>
    match matchItemsAt (c :: rest) with
    | some m => some m
    | none => findItemsMatch rest

/-- Decimal value of a digit string. -/
def digitsVal (ds : List Char) : Nat :=
  ds.foldl (fun a c => a * 10 + (c.toNat - 48)) 0

/-- Go: `strconv.Atoi` on a matched digit group, with the returned error
discarded: on overflow `ParseInt` returns the largest `int` (2^63 - 1)
together with an error, so the stored value is the clamped one. -/
def goAtoiDigits (ds : List Char) : Int :=
  let n : Int := digitsVal ds
  if n > 2 ^ 63 - 1 then 2 ^ 63 - 1 else n

/-- Go: `parseContentRange(header)`. -/
def parseContentRange (header : String) : ChunkInfo :=
  if header = "" then ⟨0, 0, 0, false⟩ else
  match findItemsMatch header.data with
  | none => ⟨0, 0, 0, false⟩
  | some (d1, d2, d3) =>
    let start := goAtoiDigits d1
    let next := goAtoiDigits d2
    let count := goAtoiDigits d3
    ⟨start, next, count, decide (next ≥ count)⟩

/-! ## Object/type registry (api/objects.go maps, api/client.go lookups) -/

/-- Go: `var Objects = map[string]string{...}` (alias → internal name). -/
def Objects : List (String × String) := [
  ("genome", "genome"),
  ("feature", "genome_feature"),
  ("family", "protein_family_ref"),
  ("genome_drug", "genome_amr"),
  ("contig", "genome_sequence"),
  ("drug", "antibiotics"),
  ("taxonomy", "taxonomy"),
  ("experiment", "transcriptomics_experiment"),
  ("expression", "transcriptomics_gene"),
  ("sample", "transcriptomics_sample"),
  ("sequence", "feature_sequence"),
  ("subsystem", "subsystem_ref"),
  ("subsystemItem", "subsystem"),
  ("alt_feature", "genome_feature"),
  ("sp_gene", "sp_gene"),
  ("protein_region", "protein_feature"),
  ("protein_structure", "protein_structure"),
  ("surveillance", "surveillance"),
  ("serology", "serology"),
  ("sf", "sequence_feature"),
  ("sfvt", "sequence_feature_vt")]

/-- Go: `var IDColumns = map[string]string{...}` (object type → ID column). -/
def IDColumns : List (String × String) := [
  ("genome", "genome_id"),
  ("feature", "patric_id"),
  ("alt_feature", "feature_id"),
  ("family", "family_id"),
  ("genome_drug", "id"),
  ("contig", "sequence_id"),
  ("drug", "antibiotic_name"),
  ("experiment", "eid"),
  ("sample", "expid"),
  ("expression", "id"),
  ("taxonomy", "taxon_id"),
  ("sequence", "md5"),
  ("sp_gene", "patric_id"),
  ("subsystem", "subsystem_id"),
  ("subsystemItem", "id"),
  ("protein_region", "id"),
  ("protein_structure", "pdb_id"),
  ("surveillance", "sample_identifier"),
  ("serology", "sample_identifier"),
  ("sf", "sf_id"),
  ("sfvt", "id")]

/-- Go: `GetObjectType` — mapped name, or the input unchanged. -/
def GetObjectType (name : String) : String :=
  match Objects.lookup name with
  | some mapped => mapped
  | none => name

/-- Go: `GetIDColumn` — ID column, or `""` (map zero value) if unknown. -/
def GetIDColumn (objectType : String) : String :=
  (IDColumns.lookup objectType).getD ""

/-! ## Wildcard-filter preprocessing

The block `if !q.HasFilters() { idCol := GetIDColumn(resolvedType); if
idCol == "" { idCol = "id" }; q = q.Clone(); q.Eq(idCol, "*") }` is
repeated verbatim at the top of `Client.Query`, `Client.Count`,
`Client.Stream` and `Client.QueryCallback`; it is factored into one
definition here and used by each embedded entry point. -/

def prepareQuery (resolvedType : String) (q : Query) : Query :=
  if !q.HasFilters then
    let idCol0 := GetIDColumn resolvedType
    let idCol := if idCol0 = "" then "id" else idCol0
    (q.Clone).Eq idCol "*"
  else q

/-! ## Transport with retry (api/client.go, `doQueryRequest`)

One HTTP exchange is abstracted as a function of the attempt number: a
connection error, or a response carrying a status code, the
`Content-Range` header, the raw body text (attached to 4xx errors) and
the result of JSON-decoding the body into records.  The cancellation
signal is a boolean (the verified scenarios never cancel).  The embedding
additionally reports the number of HTTP attempts performed and the list
of backoff waits in seconds — observable effects of the loop that the
retry claims are about. -/

inductive HTTPAttempt (α : Type) where
  | connErr (msg : String)
  | resp (status : Int) (contentRange : String) (bodyText : String)
      (bodyJSON : Except String (List α))

/-- Retryable errors tracked in `lastErr`. -/
inductive RetryErr where
  | conn (msg : String)
  | server (status : Int)
  | decode (msg : String)
deriving DecidableEq, Repr

/-- Outcome of `doQueryRequest`. -/
inductive DQRes (α : Type) where
  | ok (records : List α) (chunkInfo : ChunkInfo)
  | apiErr (status : Int) (bodyText : String)
  | failed (lastErr : Option RetryErr)
  | canceled

/-- The attempt loop `for attempt := 0; attempt <= c.MaxRetries; attempt++`,
recursing on the number of remaining iterations.  Before each retry
(attempt > 0) the code waits `2^(attempt-1)` seconds, first checking the
cancellation signal.  Result: (HTTP attempts performed, backoff waits in
seconds, outcome). -/
def dqrAux {α : Type} (ctxDone : Bool) (doHTTP : Nat → HTTPAttempt α) :
    Nat → Nat → Option RetryErr → Nat × List Nat × DQRes α
  | 0, _, lastErr => (0, [], .failed lastErr)
  | remaining + 1, attempt, lastErr =>
    if 0 < attempt ∧ ctxDone then (0, [], .canceled)
    else
      let waits : List Nat := if 0 < attempt then [2 ^ (attempt - 1)] else []
      match doHTTP attempt with
      | .connErr msg =>
        let r := dqrAux ctxDone doHTTP remaining (attempt + 1) (some (.conn msg))
        (r.1 + 1, waits ++ r.2.1, r.2.2)
      | .resp status contentRange bodyText bodyJSON =>
        if status ≥ 500 then
          let r := dqrAux ctxDone doHTTP remaining (attempt + 1) (some (.server status))
          (r.1 + 1, waits ++ r.2.1, r.2.2)
        else if status ≥ 400 then (1, waits, .apiErr status bodyText)
        else
          match bodyJSON with
          | .error msg =>
            let r := dqrAux ctxDone doHTTP remaining (attempt + 1) (some (.decode msg))
            (r.1 + 1, waits ++ r.2.1, r.2.2)
          | .ok records => (1, waits, .ok records (parseContentRange contentRange))

/-- Go: `doQueryRequest` — the loop runs for attempts `0 .. MaxRetries`,
i.e. `(MaxRetries+1).toNat` iterations (none if `MaxRetries` < 0), and
surfaces `lastErr` when the budget is exhausted. -/
def doQueryRequestGo {α : Type} (ctxDone : Bool) (maxRetries : Int) (doHTTP : Nat → HTTPAttempt α) :
    Nat × List Nat × DQRes α :=
  dqrAux ctxDone doHTTP (maxRetries + 1).toNat 0 none

/-! ## Pagination engine (api/client.go, `Query` / `QueryCallback` / `Count`)

The page-level transport is a function from the request body (built
exactly as in the source) plus the chunk size and offset the body
encodes, to `doQueryRequest`'s outcome for that page: records plus
`ChunkInfo`, or an error.  The unbounded `for {}` loop is given explicit
fuel; `fuelOut` marks exhaustion and the theorems supply enough fuel.
The embedding counts the page requests issued — the observable the
pagination claims are about. -/

/-- Go: the request-body construction inside each page loop:
`<queryStr>&limit(chunkSize[,offset])`, the `&` only when the query
string is non-empty and the offset clause only after page 1. -/
def pageBody (queryStr : String) (chunkSize offset : Int) : String :=
  let body := if queryStr ≠ "" then queryStr ++ "&" else queryStr
  if offset > 0 then
    body ++ "limit(" ++ toString chunkSize ++ "," ++ toString offset ++ ")"
  else
    body ++ "limit(" ++ toString chunkSize ++ ")"

/-- Outcome of the batch page loop: accumulated records plus the number
of page requests issued, or an error / cancellation / fuel exhaustion. -/
inductive LoopRes (ε α : Type) where
  | ok (records : List α) (requests : Nat)
  | err (e : ε)
  | canceled
  | fuelOut

/-- The page loop of `Client.Query`: append the page, stop on
`chunkInfo.IsLast` or a short page, stop once the accumulated count
reaches a positive limit, otherwise continue from `chunkInfo.Next`. -/
def queryLoop {ε α : Type} (fetch : String → Int → Int → Except ε (List α × ChunkInfo))
    (queryStr : String) (chunkSize limitValue : Int) (ctxDone : Bool) :
    Nat → Int → List α → Nat → LoopRes ε α
  | 0, _, _, _ => .fuelOut
  | fuel + 1, offset, allResults, requests =>
    if ctxDone then .canceled
    else
      match fetch (pageBody queryStr chunkSize offset) chunkSize offset with
      | .error e => .err e
      | .ok (results, chunkInfo) =>
        let allResults := allResults ++ results
        if chunkInfo.IsLast || (results.length : Int) < chunkSize then
          .ok allResults (requests + 1)
        else if 0 < limitValue ∧ (allResults.length : Int) ≥ limitValue then
          .ok allResults (requests + 1)
        else
          queryLoop fetch queryStr chunkSize limitValue ctxDone fuel
            chunkInfo.Next allResults (requests + 1)

/-- Go: `Client.Query` — resolve the object type, inject the wildcard
filter if needed, build the query string, shrink the chunk size to a
positive limit, run the page loop from offset 0, and trim the
accumulated records to the limit. -/
def ClientQuery {ε α : Type} (chunkSizeCfg : Int)
    (fetch : String → Int → Int → Except ε (List α × ChunkInfo))
    (ctxDone : Bool) (objectType : String) (q : Query) (fuel : Nat) : LoopRes ε α :=
  let resolvedType := GetObjectType objectType
  let q1 := prepareQuery resolvedType q
  let queryStr := q1.Build
  let chunkSize := if 0 < q1.LimitValue ∧ q1.LimitValue < chunkSizeCfg then
      q1.LimitValue else chunkSizeCfg
  match queryLoop fetch queryStr chunkSize q1.LimitValue ctxDone fuel 0 [] 0 with
  | .ok allResults requests =>
    .ok (if 0 < q1.LimitValue ∧ (allResults.length : Int) > q1.LimitValue then
          allResults.take q1.LimitValue.toNat
        else allResults) requests
  | r => r

/-- Outcome of the callback page loop. -/
inductive CBRes (ε : Type) where
  | ok
  | err (e : ε)
  | canceled
  | fuelOut

/-- The page loop of `Client.QueryCallback`: trim a page that would
overshoot a positive limit to its first `limit - totalFetched` records,
deliver it to the callback (a `false` return stops fetching), then apply
the same termination tests as the batch loop.  The first component
collects the batches delivered to the callback, in order. -/
def queryCallbackLoop {ε α : Type} (fetch : String → Int → Int → Except ε (List α × ChunkInfo))
    (queryStr : String) (chunkSize limitValue : Int)
    (callback : List α → ChunkInfo → Bool) (ctxDone : Bool) :
    Nat → Int → Int → List (List α) × CBRes ε
  | 0, _, _ => ([], .fuelOut)
  | fuel + 1, offset, totalFetched =>
    if ctxDone then ([], .canceled)
    else
      match fetch (pageBody queryStr chunkSize offset) chunkSize offset with
      | .error e => ([], .err e)
      | .ok (results0, chunkInfo) =>
        let results := if 0 < limitValue ∧ totalFetched + (results0.length : Int) > limitValue
          then results0.take (limitValue - totalFetched).toNat
          else results0
        let totalFetched := totalFetched + (results.length : Int)
        if callback results chunkInfo = false then ([results], .ok)
        else if chunkInfo.IsLast || (results.length : Int) < chunkSize then ([results], .ok)
        else if 0 < limitValue ∧ totalFetched ≥ limitValue then ([results], .ok)
        else
          let rest := queryCallbackLoop fetch queryStr chunkSize limitValue callback ctxDone
            fuel chunkInfo.Next totalFetched
          (results :: rest.1, rest.2)

/-- Go: `Client.QueryCallback` — same preprocessing as `Client.Query`,
then the callback page loop from offset 0 with no records fetched yet. -/
def ClientQueryCallback {ε α : Type} (chunkSizeCfg : Int)
    (fetch : String → Int → Int → Except ε (List α × ChunkInfo))
    (ctxDone : Bool) (objectType : String) (q : Query)
    (callback : List α → ChunkInfo → Bool) (fuel : Nat) : List (List α) × CBRes ε :=
  let resolvedType := GetObjectType objectType
  let q1 := prepareQuery resolvedType q
  let queryStr := q1.Build
  let chunkSize := if 0 < q1.LimitValue ∧ q1.LimitValue < chunkSizeCfg then
      q1.LimitValue else chunkSizeCfg
  queryCallbackLoop fetch queryStr chunkSize q1.LimitValue callback ctxDone fuel 0 0

/-! ## Count (api/client.go, `Client.Count`)

`Count` performs a single request (no loop, no retry): body
`<queryStr>&limit(1)`, then the total from the parsed `Content-Range`
header; 4xx and transport errors surface immediately.  The single HTTP
exchange is a function of the request body; the embedding also returns
the list of request bodies sent (always exactly one). -/

inductive CountSendRes where
  | connErr (msg : String)
  | resp (status : Int) (contentRange : String) (bodyText : String)

def ClientCount (send : String → CountSendRes) (objectType : String) (q : Query) :
    List String × Except String Int :=
  let resolvedType := GetObjectType objectType
  let q1 := prepareQuery resolvedType q
  let queryStr := q1.Build
  let body := (if queryStr ≠ "" then queryStr ++ "&" else queryStr) ++ "limit(1)"
  ([body],
    match send body with
    | .connErr msg => .error ("executing request: " ++ msg)
    | .resp status contentRange bodyText =>
      if status ≥ 400 then .error ("API error: " ++ toString status ++ " - " ++ bodyText)
      else .ok (parseContentRange contentRange).Count)

/-! ## Honest mock server

A server holding `records` and answering each page request with the
slice `records[offset : offset+chunkSize]` and the header-derived
`ChunkInfo` `{offset, offset+len(page), total, next >= total}` — exactly
what `parseContentRange` yields for `items offset-(offset+len)/total`. -/

def mockFetch {α ε : Type} (records : List α) (_body : String) (chunkSize offset : Int) :
    Except ε (List α × ChunkInfo) :=
  let page := (records.drop offset.toNat).take chunkSize.toNat
  let next : Int := offset + page.length
  .ok (page, ⟨offset, next, (records.length : Int), decide (next ≥ (records.length : Int))⟩)

/-! ## Aliasing-aware model of the Go query (for `Clone`)

`Clone` copies each backing list with `make` + `copy`.  Copying a
`[]Filter` copies the `Filter` structs, and each struct carries the
slice *header* of its `Values` list — `copy` does not descend into it.
To reason about this, Go slices are modelled as headers (array index +
length) into a store of arrays.  Every slice produced by this code comes
from `make` with exact length or from a variadic call, so its capacity
equals its length; `append` on such a slice always reallocates, which
the model reflects by allocating a fresh array on every append. -/

/-- A Go slice header: backing-array index and length; `none` is the nil slice. -/
structure GoSlice where
  arr : Option Nat
  len : Nat
deriving DecidableEq, Repr

/-- A `Filter` as stored in memory: `Values` is a slice header. -/
structure GoFilter where
  Op : FilterOp
  Field : String
  Value : String
  Values : GoSlice
deriving DecidableEq, Repr

/-- The store of backing arrays, one store per element type. -/
structure Heap where
  strArrays : List (List String)
  filterArrays : List (List GoFilter)
  sortArrays : List (List SortSpec)
deriving Repr

/-- A `Query` as stored in memory. -/
structure GoQuery where
  SelectFields : GoSlice
  Filters : GoSlice
  RequiredFields : GoSlice
  Keyword : String
  SortSpecs : GoSlice
  LimitValue : Int
deriving Repr

def nilSlice : GoSlice := ⟨none, 0⟩

def readStrSlice (h : Heap) (s : GoSlice) : List String :=
  match s.arr with
  | none => []
  | some i => (h.strArrays.getD i []).take s.len

def readFilterSlice (h : Heap) (s : GoSlice) : List GoFilter :=
  match s.arr with
  | none => []
  | some i => (h.filterArrays.getD i []).take s.len

def readSortSlice (h : Heap) (s : GoSlice) : List SortSpec :=
  match s.arr with
  | none => []
  | some i => (h.sortArrays.getD i []).take s.len

/-- Allocate a fresh string array (`make([]string, len)` + contents). -/
def allocStr (h : Heap) (xs : List String) : Heap × GoSlice :=
  ({ h with strArrays := h.strArrays ++ [xs] }, ⟨some h.strArrays.length, xs.length⟩)

def allocFilter (h : Heap) (xs : List GoFilter) : Heap × GoSlice :=
  ({ h with filterArrays := h.filterArrays ++ [xs] }, ⟨some h.filterArrays.length, xs.length⟩)

def allocSort (h : Heap) (xs : List SortSpec) : Heap × GoSlice :=
  ({ h with sortArrays := h.sortArrays ++ [xs] }, ⟨some h.sortArrays.length, xs.length⟩)

/-- Go `append` on a slice whose capacity equals its length: reallocate. -/
def appendStr (h : Heap) (s : GoSlice) (xs : List String) : Heap × GoSlice :=
  allocStr h (readStrSlice h s ++ xs)

def appendFilter (h : Heap) (s : GoSlice) (xs : List GoFilter) : Heap × GoSlice :=
  allocFilter h (readFilterSlice h s ++ xs)

def appendSort (h : Heap) (s : GoSlice) (xs : List SortSpec) : Heap × GoSlice :=
  allocSort h (readSortSlice h s ++ xs)

/-- In-place element assignment `s[i] = v` on a string slice. -/
def writeStrElem (h : Heap) (s : GoSlice) (i : Nat) (v : String) : Heap :=
  match s.arr with
  | none => h
  | some a => { h with strArrays := h.strArrays.set a ((h.strArrays.getD a []).set i v) }

/-- In-place element assignment on a filter slice. -/
def writeFilterElem (h : Heap) (s : GoSlice) (i : Nat) (f : GoFilter) : Heap :=
  match s.arr with
  | none => h
  | some a => { h with filterArrays := h.filterArrays.set a ((h.filterArrays.getD a []).set i f) }

/-- In-place element assignment on a sort-spec slice. -/
def writeSortElem (h : Heap) (s : GoSlice) (i : Nat) (sp : SortSpec) : Heap :=
  match s.arr with
  | none => h
  | some a => { h with sortArrays := h.sortArrays.set a ((h.sortArrays.getD a []).set i sp) }

/-- Go: `NewQuery()` — all slices nil. -/
def newQueryH : GoQuery := ⟨nilSlice, nilSlice, nilSlice, "", nilSlice, 0⟩

/-- Go: `q.Select(fields...)`. -/
def GoQuery.selectH (h : Heap) (q : GoQuery) (fields : List String) : Heap × GoQuery :=
  let r := appendStr h q.SelectFields fields
  (r.1, { q with SelectFields := r.2 })

/-- Go: `q.Eq(field, value)`. -/
def GoQuery.eqH (h : Heap) (q : GoQuery) (field value : String) : Heap × GoQuery :=
  let r := appendFilter h q.Filters [⟨OpEq, field, value, nilSlice⟩]
  (r.1, { q with Filters := r.2 })

/-- Go: `q.In(field, values...)` — the variadic argument materializes as
a fresh backing array whose header is stored in the filter struct. -/
def GoQuery.inH (h : Heap) (q : GoQuery) (field : String) (values : List String) :
    Heap × GoQuery :=
  let rv := allocStr h values
  let rf := appendFilter rv.1 q.Filters [⟨OpIn, field, "", rv.2⟩]
  (rf.1, { q with Filters := rf.2 })

/-- Go: `q.Required(fields...)`. -/
def GoQuery.requiredH (h : Heap) (q : GoQuery) (fields : List String) : Heap × GoQuery :=
  let r := appendStr h q.RequiredFields fields
  (r.1, { q with RequiredFields := r.2 })

/-- Go: `q.Sort(field, descending)`. -/
def GoQuery.sortH (h : Heap) (q : GoQuery) (field : String) (descending : Bool) :
    Heap × GoQuery :=
  let r := appendSort h q.SortSpecs [⟨field, descending⟩]
  (r.1, { q with SortSpecs := r.2 })

/-- Go: `q.WithKeyword(keyword)` — no backing list is touched. -/
def GoQuery.withKeywordH (h : Heap) (q : GoQuery) (keyword : String) : Heap × GoQuery :=
  (h, { q with Keyword := keyword })

/-- Go: `q.Limit(n)` — no backing list is touched. -/
def GoQuery.limitH (h : Heap) (q : GoQuery) (n : Int) : Heap × GoQuery :=
  (h, { q with LimitValue := n })

/-- Go: `Query.Clone()` — `make` a new backing array per list and `copy`
the contents; the `Filter` structs are copied with their `Values` slice
headers unchanged, and `Keyword`/`LimitValue` are copied by value. -/
def GoQuery.cloneH (h : Heap) (q : GoQuery) : Heap × GoQuery :=
  let rSel := allocStr h (readStrSlice h q.SelectFields)
  let rFil := allocFilter rSel.1 (readFilterSlice rSel.1 q.Filters)
  let rReq := allocStr rFil.1 (readStrSlice rFil.1 q.RequiredFields)
  let rSor := allocSort rReq.1 (readSortSlice rReq.1 q.SortSpecs)
  (rSor.1, ⟨rSel.2, rFil.2, rReq.2, q.Keyword, rSor.2, q.LimitValue⟩)

/-- Dereference a stored filter into its value view. -/
def resolveFilter (h : Heap) (f : GoFilter) : Filter :=
  ⟨f.Op, f.Field, f.Value, readStrSlice h f.Values⟩

/-- Dereference a stored query into its value view; `Build`, equality
etc. of the value view are the query's observable state. -/
def GoQuery.resolve (h : Heap) (q : GoQuery) : Query :=
  ⟨readStrSlice h q.SelectFields,
   (readFilterSlice h q.Filters).map (resolveFilter h),
   readStrSlice h q.RequiredFields,
   q.Keyword,
   readSortSlice h q.SortSpecs,
   q.LimitValue⟩

/-- Well-formedness of a slice header over the string store. -/
def strSliceWFb (h : Heap) (s : GoSlice) : Bool :=
  match s.arr with
  | none => true
  | some i => i < h.strArrays.length

def filterSliceWFb (h : Heap) (s : GoSlice) : Bool :=
  (match s.arr with
   | none => true
   | some i => i < h.filterArrays.length) &&
  (readFilterSlice h s).all (fun f => strSliceWFb h f.Values)

def sortSliceWFb (h : Heap) (s : GoSlice) : Bool :=
  match s.arr with
  | none => true
  | some i => i < h.sortArrays.length

/-- Well-formedness of a stored query: every slice header points inside
its store. -/
def queryWFb (h : Heap) (q : GoQuery) : Bool :=
  strSliceWFb h q.SelectFields && filterSliceWFb h q.Filters &&
    strSliceWFb h q.RequiredFields && sortSliceWFb h q.SortSpecs

/-! ## A concrete aliasing scenario

The state reached by `q := NewQuery().In("status", "a", "b")` followed by
`c := q.Clone()`, and the heap after the element write
`c.Filters[0].Values[0] = "z"` through the clone's `in`-filter value
list. -/

def c5Heap0 : Heap := ⟨[], [], []⟩

def c5Step1 : Heap × GoQuery := GoQuery.inH c5Heap0 newQueryH "status" ["a", "b"]

def c5Step2 : Heap × GoQuery := GoQuery.cloneH c5Step1.1 c5Step1.2

def c5Values : GoSlice :=
  ((readFilterSlice c5Step2.1 c5Step2.2.Filters).getD 0 ⟨OpEq, "", "", nilSlice⟩).Values

def c5Heap3 : Heap := writeStrElem c5Step2.1 c5Values 0 "z"

/-! ## Spec-side description of `Build` (for the clause-order claim)

The spec says `build` emits, in fixed order: a select clause; one clause
per filter; one `ne(field,)` clause per required field; a keyword
clause; a sort clause — joined by `&`.  This definition follows those
words; the claim compares it against `Query.Build` above. -/

def specClauses (q : Query) : List String :=
  (if q.SelectFields = [] then [] else
    ["select(" ++ String.intercalate "," q.SelectFields ++ ")"]) ++
  q.Filters.map Filter.clause ++
  q.RequiredFields.map (fun field => "ne(" ++ field ++ ",)") ++
  (if q.Keyword = "" then [] else ["keyword(" ++ encodeRQLValue q.Keyword ++ ")"]) ++
  (if q.SortSpecs = [] then [] else
    ["sort(" ++ String.intercalate ","
      (q.SortSpecs.map fun s => (if s.Descending then "-" else "+") ++ s.Field) ++ ")"])

def buildSpec (q : Query) : String :=
  String.intercalate "&" (specClauses q)

/-- Sum of the lengths of the batches delivered to a callback. -/
def sumLens {α : Type} (xs : List (List α)) : Nat :=
  (xs.map List.length).sum

/-! # Theorems -/

/-- The character-wise `+` → `%20` substitution leaves no `+` behind. -/
lemma replacePlus_no_plus (l : List Char) :
    ((l.flatMap fun c => if c = '+' then ['%', '2', '0'] else [c]).contains '+') = false := by
  rw [Bool.eq_false_iff]
  intro hc
  rw [List.elem_iff] at hc
  rcases List.mem_flatMap.mp hc with ⟨c, _, hmem⟩
  by_cases h : c = '+'
  · simp [h] at hmem
  · simp [h] at hmem
    exact h hmem.symm

/-- C7: `Build()` encodes every filter value by percent-encoding and then
replacing each `+` produced by space-encoding with `%20`: the output never
contains `+`, a space encodes to `%20`, a literal `+` encodes to `%2B`
(not corrupted into a space), and an `in` filter renders as
`in(field,(v1,v2,...))` with each value independently encoded the same
way and value order preserved, e.g. `In("status","a","b","c")` builds
`in(status,(a,b,c))`. -/
theorem encodeRQLValue_spec :
    (∀ s : String, ((encodeRQLValue s).data.contains '+') = false) ∧
    encodeRQLValue " " = "%20" ∧
    encodeRQLValue "+" = "%2B" ∧
    (∀ (field : String) (vs : List String),
      Filter.clause ⟨OpIn, field, "", vs⟩ =
        "in(" ++ field ++ ",(" ++ String.intercalate "," (vs.map encodeRQLValue) ++ "))") ∧
    Query.Build (NewQuery.In "status" ["a", "b", "c"]) = "in(status,(a,b,c))" := by
  refine ⟨fun s => replacePlus_no_plus _, rfl, rfl, fun field vs => rfl, rfl⟩

/-- C6: `Build()` emits clauses in fixed order — select, filters in
order, `ne(field,)` per required field, keyword, sort — joined by `&`
(this is `buildSpec`, written from the spec's description); an empty
query builds `""`, and `Select("a","b").Eq("x","y")` builds
`"select(a,b)&eq(x,y)"`. -/
theorem build_clause_order :
    (∀ q : Query, q.Build = buildSpec q) ∧
    Query.Build NewQuery = "" ∧
    Query.Build ((NewQuery.Select ["a", "b"]).Eq "x" "y") = "select(a,b)&eq(x,y)" := by
  refine ⟨fun q => ?_, rfl, rfl⟩
  rcases q with ⟨sel, fil, req, kw, sorts, lim⟩
  unfold Query.Build buildSpec specClauses
  cases sel <;> cases sorts <;> by_cases hk : kw = "" <;>
    simp [hk, List.append_assoc]

/-- C4: `parseContentRange` maps `"items 400-500/500"` to
`{400,500,500,true}`, `"items 0-100/500"` to `{0,100,500,false}`, and
every empty or non-matching input to `{0,0,0,false}`; for every
successfully parsed header, `IsLast` holds iff `Next >= Count`. -/
theorem parseContentRange_spec :
    parseContentRange "items 400-500/500" = ⟨400, 500, 500, true⟩ ∧
    parseContentRange "items 0-100/500" = ⟨0, 100, 500, false⟩ ∧
    parseContentRange "" = ⟨0, 0, 0, false⟩ ∧
    parseContentRange "not a valid header" = ⟨0, 0, 0, false⟩ ∧
    (∀ h : String, findItemsMatch h.data = none → parseContentRange h = ⟨0, 0, 0, false⟩) ∧
    (∀ h : String, findItemsMatch h.data ≠ none →
      ((parseContentRange h).IsLast = true ↔
        (parseContentRange h).Next ≥ (parseContentRange h).Count)) := by
  refine ⟨by decide, by decide, by decide, by decide, ?_, ?_⟩
  · intro h hm
    by_cases hh : h = ""
    · subst hh; rfl
    · simp [parseContentRange, hh, hm]
  · intro h hm
    by_cases hh : h = ""
    · subst hh
      exact absurd rfl hm
    · rcases hx : findItemsMatch h.data with _ | ⟨d1, d2, d3⟩
      · exact absurd hx hm
      · simp [parseContentRange, hh, hx, ge_iff_le, decide_eq_true_iff]

/-- Witness for the conditional parts of `parseContentRange_spec`, at the
concrete headers `"garbage"` (no match) and `"items 7-9/12"` (a match). -/
theorem parseContentRange_spec_witness :
    parseContentRange "garbage" = ⟨0, 0, 0, false⟩ ∧
    ((parseContentRange "items 7-9/12").IsLast = true ↔
      (parseContentRange "items 7-9/12").Next ≥ (parseContentRange "items 7-9/12").Count) :=
  ⟨parseContentRange_spec.2.2.2.2.1 "garbage" (by decide),
   parseContentRange_spec.2.2.2.2.2 "items 7-9/12" (by decide)⟩

/-- C2: for a query with `HasFilters()` false, each retrieval entry point
(they all run this preprocessing, factored here as `prepareQuery`)
injects exactly one `eq(idColumn, "*")` filter into a clone — the
registry ID column of the resolved type, literal `"id"` if unregistered —
changing nothing else; for a query with `HasFilters()` true, nothing is
injected. -/
theorem wildcard_injection :
    ∀ (rt : String) (q : Query),
      (q.HasFilters = false →
        prepareQuery rt q =
          { q with Filters :=
              [⟨OpEq, if GetIDColumn rt = "" then "id" else GetIDColumn rt, "*", []⟩] }) ∧
      (q.HasFilters = true → prepareQuery rt q = q) := by
  intro rt q
  constructor
  · intro hf
    have hfil : q.Filters = [] := by
      have := hf
      unfold Query.HasFilters at this
      simp [Bool.or_eq_false_iff] at this
      exact this.1.1
    unfold prepareQuery
    rw [hf]
    simp [Query.Clone, Query.Eq, hfil]
  · intro hf
    unfold prepareQuery
    rw [hf]
    rfl

/-- Witness for `wildcard_injection` at a registered type with a
filterless query, and at the same type with a filtered query. -/
theorem wildcard_injection_witness :
    prepareQuery "genome" NewQuery =
      { NewQuery with Filters := [⟨OpEq, "genome_id", "*", []⟩] } ∧
    prepareQuery "genome" (NewQuery.Eq "x" "y") = NewQuery.Eq "x" "y" :=
  ⟨(wildcard_injection "genome" NewQuery).1 rfl,
   (wildcard_injection "genome" (NewQuery.Eq "x" "y")).2 rfl⟩

/-- The wildcard-filter preprocessing never changes the result limit. -/
lemma prepareQuery_LimitValue (rt : String) (q : Query) :
    (prepareQuery rt q).LimitValue = q.LimitValue := by
  unfold prepareQuery
  split <;> rfl

/-- Invariant of the callback page loop: starting `totalFetched` within a
positive limit, the records delivered to the callback never push the
cumulative count past the limit — against any transport and callback. -/
lemma queryCallbackLoop_le_limit {ε α : Type}
    (fetch : String → Int → Int → Except ε (List α × ChunkInfo))
    (qs : String) (cs L : Int) (cb : List α → ChunkInfo → Bool) (ctx : Bool) (hL : 0 < L) :
    ∀ (fuel : Nat) (offset t : Int), 0 ≤ t → t ≤ L →
      t + (sumLens (queryCallbackLoop fetch qs cs L cb ctx fuel offset t).1 : Int) ≤ L := by
  intro fuel
  induction fuel with
  | zero =>
    intro offset t _ ht
    simpa [queryCallbackLoop, sumLens] using ht
  | succ n ih =>
    intro offset t ht0 htL
    rw [queryCallbackLoop]
    by_cases hctx : ctx = true
    · rw [if_pos hctx]
      simpa [sumLens] using htL
    · rw [if_neg hctx]
      rcases hfe : fetch (pageBody qs cs offset) cs offset with e | pr
      · simp only [hfe]
        simpa [sumLens] using htL
      · rcases pr with ⟨results0, ci⟩
        simp only [hfe]
        set results := if 0 < L ∧ t + (results0.length : Int) > L
          then results0.take (L - t).toNat else results0 with hres
        have hlen : t + (results.length : Int) ≤ L := by
          rw [hres]
          split
          · rename_i htrim
            have h1 : ((L - t).toNat : Int) = L - t := Int.toNat_of_nonneg (by omega)
            have h2 : (results0.take (L - t).toNat).length = min (L - t).toNat results0.length :=
              List.length_take _ _
            rw [h2]
            have h3 : ((min (L - t).toNat results0.length : Nat) : Int) ≤ ((L - t).toNat : Int) :=
              Nat.cast_le.mpr (Nat.min_le_left _ _)
            omega
          · rename_i htrim
            push_neg at htrim
            have := htrim hL
            omega
        by_cases hcb : cb results ci = false
        · rw [if_pos hcb]
          simpa [sumLens] using hlen
        · rw [if_neg hcb]
          by_cases hstop1 : (ci.IsLast || decide ((results.length : Int) < cs)) = true
          · rw [if_pos hstop1]
            simpa [sumLens] using hlen
          · rw [if_neg hstop1]
            by_cases hstop2 : 0 < L ∧ t + (results.length : Int) ≥ L
            · rw [if_pos hstop2]
              simpa [sumLens] using hlen
            · rw [if_neg hstop2]
              have hrec := ih ci.Next (t + (results.length : Int)) (by positivity) (by omega)
              simp only [sumLens, List.map_cons, List.sum_cons] at hrec ⊢
              push_cast at hrec ⊢
              omega

/-- C10: for every query with `LimitValue` L > 0, `QueryCallback` trims
the final page before delivering it: the cumulative number of records
passed to the callback across all invocations never exceeds L (the page
that would overshoot is cut to the first `L - already delivered` records
by the loop's trimming step, visible in `queryCallbackLoop`). -/
theorem queryCallback_limit {ε α : Type} :
    ∀ (chunkCfg : Int) (fetch : String → Int → Int → Except ε (List α × ChunkInfo))
      (ctx : Bool) (obj : String) (q : Query) (cb : List α → ChunkInfo → Bool) (fuel : Nat),
      0 < q.LimitValue →
      (sumLens (ClientQueryCallback chunkCfg fetch ctx obj q cb fuel).1 : Int) ≤ q.LimitValue := by
  intro cfg fetch ctx obj q cb fuel hL
  simp only [ClientQueryCallback]
  rw [prepareQuery_LimitValue]
  have := queryCallbackLoop_le_limit fetch (prepareQuery (GetObjectType obj) q).Build
    (if 0 < q.LimitValue ∧ q.LimitValue < cfg then q.LimitValue else cfg)
    q.LimitValue cb ctx hL fuel 0 0 le_rfl (le_of_lt hL)
  simpa using this

/-- Witness for `queryCallback_limit`: five records, limit 3, page size 2. -/
theorem queryCallback_limit_witness :
    (sumLens (ClientQueryCallback 2
      (mockFetch [10, 20, 30, 40, 50] :
        String → Int → Int → Except String (List Nat × ChunkInfo))
      false "genome" (NewQuery.Limit 3) (fun _ _ => true) 10).1 : Int) ≤ 3 :=
  queryCallback_limit 2 (mockFetch [10, 20, 30, 40, 50]) false "genome"
    (NewQuery.Limit 3) (fun _ _ => true) 10 (by decide)

/-- C9: batch mode fails atomically.  If page 1 succeeds with a full
non-final page that does not satisfy the limit, and the request for page
2 fails, `Client.Query` returns the error alone — the `err` result
carries no records, so the page-1 records are discarded. -/
theorem query_atomic_failure {ε α : Type} :
    ∀ (chunkCfg cs : Int) (fetch : String → Int → Int → Except ε (List α × ChunkInfo))
      (obj : String) (q : Query) (fuel : Nat) (page1 : List α) (ci1 : ChunkInfo) (e : ε),
      cs = (if 0 < q.LimitValue ∧ q.LimitValue < chunkCfg then q.LimitValue else chunkCfg) →
      2 ≤ fuel →
      fetch (pageBody (prepareQuery (GetObjectType obj) q).Build cs 0) cs 0 =
        .ok (page1, ci1) →
      ci1.IsLast = false →
      (page1.length : Int) = cs →
      ¬(0 < q.LimitValue ∧ (page1.length : Int) ≥ q.LimitValue) →
      fetch (pageBody (prepareQuery (GetObjectType obj) q).Build cs ci1.Next) cs ci1.Next =
        .error e →
      ClientQuery chunkCfg fetch false obj q fuel = .err e := by
  intro cfg cs fetch obj q fuel page1 ci1 e hcs hfuel h1 hlast hfull hlim h2
  obtain ⟨f, rfl⟩ : ∃ f, fuel = f + 2 := ⟨fuel - 2, by omega⟩
  simp only [ClientQuery]
  rw [prepareQuery_LimitValue, ← hcs]
  rw [queryLoop]
  rw [if_neg (by simp : ¬(false = true))]
  rw [h1]
  simp only []
  rw [if_neg, if_neg]
  · rw [queryLoop]
    rw [if_neg (by simp : ¬(false = true))]
    rw [h2]
  · simp only [List.nil_append]
    exact hlim
  · rw [hlast]
    simp only [Bool.false_or]
    simp [hfull]

/-- Witness for `query_atomic_failure`: a 3-record first page, then an
error on the second request. -/
theorem query_atomic_failure_witness :
    ClientQuery 3
      ((fun _ _ o => if o = 0 then .ok ([1, 2, 3], ⟨0, 3, 9, false⟩) else .error "boom") :
        String → Int → Int → Except String (List Nat × ChunkInfo))
      false "genome" NewQuery 5 = .err "boom" :=
  query_atomic_failure 3 3
    ((fun _ _ o => if o = 0 then .ok ([1, 2, 3], ⟨0, 3, 9, false⟩) else .error "boom"))
    "genome" NewQuery 5 [1, 2, 3] ⟨0, 3, 9, false⟩ "boom"
    (by decide) (by decide) rfl rfl (by decide) (by decide) rfl

/-- C8: `Count` issues exactly one request — the request trace is the
single body `<rqlString>&limit(1)` (page size 1) — and on a non-error
response returns the total count parsed from the `Content-Range`
header. -/
theorem count_single_request :
    ∀ (send : String → CountSendRes) (obj : String) (q : Query),
      (ClientCount send obj q).1 =
        [(if (prepareQuery (GetObjectType obj) q).Build ≠ "" then
            (prepareQuery (GetObjectType obj) q).Build ++ "&"
          else (prepareQuery (GetObjectType obj) q).Build) ++ "limit(1)"] ∧
      (ClientCount send obj q).1.length = 1 ∧
      (∀ (status : Int) (contentRange bodyText : String),
        send ((if (prepareQuery (GetObjectType obj) q).Build ≠ "" then
            (prepareQuery (GetObjectType obj) q).Build ++ "&"
          else (prepareQuery (GetObjectType obj) q).Build) ++ "limit(1)") =
          .resp status contentRange bodyText →
        status < 400 →
        (ClientCount send obj q).2 = .ok (parseContentRange contentRange).Count) := by
  intro send obj q
  refine ⟨rfl, rfl, ?_⟩
  intro status contentRange bodyText hsend hst
  simp only [ClientCount]
  rw [hsend]
  dsimp only
  rw [if_neg (by omega : ¬ status ≥ 400)]

/-- Witness for `count_single_request`: a server answering
`items 0-1/12345` yields count 12345 from one request. -/
theorem count_single_request_witness :
    (ClientCount (fun _ => .resp 200 "items 0-1/12345" "") "genome"
      (NewQuery.Eq "genus" "Streptomyces")).1.length = 1 ∧
    (ClientCount (fun _ => .resp 200 "items 0-1/12345" "") "genome"
      (NewQuery.Eq "genus" "Streptomyces")).2 = .ok 12345 := by
  constructor
  · exact (count_single_request (fun _ => .resp 200 "items 0-1/12345" "") "genome"
      (NewQuery.Eq "genus" "Streptomyces")).2.1
  · have h := (count_single_request (fun _ => .resp 200 "items 0-1/12345" "") "genome"
      (NewQuery.Eq "genus" "Streptomyces")).2.2 200 "items 0-1/12345" "" rfl (by decide)
    rw [h, show (parseContentRange "items 0-1/12345").Count = (12345 : Int) from by decide]

/-- Against an all-5xx server, the attempt loop runs its whole budget
from any retry attempt `w+1`: `rem` further attempts, waiting
`2^(w+i)` seconds before each, and surfaces the last server error. -/
lemma dqrAux_all5xx {α : Type} (doHTTP : Nat → HTTPAttempt α) (st : Nat → Int)
    (cr bt : Nat → String) (bj : Nat → Except String (List α))
    (hresp : ∀ a, doHTTP a = .resp (st a) (cr a) (bt a) (bj a))
    (h5 : ∀ a, 500 ≤ st a) :
    ∀ (rem w : Nat) (le : Option RetryErr),
      dqrAux false doHTTP rem (w + 1) le =
        (rem, (List.range rem).map (fun i => 2 ^ (w + i)),
          .failed (if rem = 0 then le else some (.server (st (w + rem))))) := by
  intro rem
  induction rem with
  | zero => intro w le; simp [dqrAux]
  | succ n ih =>
    intro w le
    rw [dqrAux]
    rw [if_neg (by simp : ¬(0 < w + 1 ∧ false = true))]
    rw [hresp (w + 1)]
    dsimp only
    rw [if_pos (by exact h5 (w + 1) : st (w + 1) ≥ 500)]
    rw [ih (w + 1) (some (.server (st (w + 1))))]
    dsimp only
    rw [if_pos (by omega : 0 < w + 1)]
    simp only [Prod.mk.injEq]
    refine ⟨trivial, ?_, ?_⟩
    · rw [List.singleton_append, List.range_succ_eq_map, List.map_cons, List.map_map]
      refine congrArg₂ List.cons (by norm_num) ?_
      refine List.map_congr_left fun i _ => ?_
      simp only [Function.comp_apply]
      congr 1
      omega
    · rw [if_neg (Nat.succ_ne_zero n)]
      rcases Nat.eq_zero_or_pos n with hn | hn
      · subst hn; simp
      · rw [if_neg (by omega : ¬ n = 0)]
        have harith : w + 1 + n = w + (n + 1) := by omega
        rw [harith]

/-- C3: in `doQueryRequest`, a server answering 5xx on every attempt
causes exactly `maxRetries + 1` attempts with backoff waits of
`2^(attempt-1)` seconds before each retry, surfacing the last retryable
error; a 4xx response causes exactly 1 attempt, no waits, and an error
carrying the response body text.  (The cancellation signal is checked
before every wait: see the `ctxDone` test in `dqrAux`.) -/
theorem retry_budget {α : Type} :
    ∀ (mr : Int) (doHTTP : Nat → HTTPAttempt α) (st : Nat → Int)
      (cr bt : Nat → String) (bj : Nat → Except String (List α)),
      0 ≤ mr →
      ((∀ a, doHTTP a = .resp (st a) (cr a) (bt a) (bj a)) → (∀ a, 500 ≤ st a) →
        doQueryRequestGo false mr doHTTP =
          (mr.toNat + 1, (List.range mr.toNat).map (fun i => 2 ^ i),
            .failed (some (.server (st mr.toNat))))) ∧
      (∀ (status : Int) (contentRange bodyText : String)
        (bodyJSON : Except String (List α)),
        doHTTP 0 = .resp status contentRange bodyText bodyJSON →
        400 ≤ status → status < 500 →
        doQueryRequestGo false mr doHTTP = (1, [], .apiErr status bodyText)) := by
  intro mr doHTTP st cr bt bj hmr
  have htn : (mr + 1).toNat = mr.toNat + 1 := by omega
  constructor
  · intro hresp h5
    unfold doQueryRequestGo
    rw [htn, dqrAux]
    rw [if_neg (by simp : ¬(0 < 0 ∧ false = true))]
    rw [hresp 0]
    dsimp only
    rw [if_pos (by exact h5 0 : st 0 ≥ 500)]
    rw [show (0 : Nat) + 1 = 0 + 1 from rfl]
    rw [dqrAux_all5xx doHTTP st cr bt bj hresp h5 mr.toNat 0 (some (.server (st 0)))]
    dsimp only
    rw [if_neg (by omega : ¬ 0 < 0)]
    simp only [Prod.mk.injEq]
    refine ⟨trivial, by simp, ?_⟩
    rcases Nat.eq_zero_or_pos mr.toNat with hn | hn
    · rw [hn]; simp
    · rw [if_neg (by omega : ¬ mr.toNat = 0)]
      simp
  · intro status contentRange bodyText bodyJSON hresp h400 h500
    unfold doQueryRequestGo
    rw [htn, dqrAux]
    rw [if_neg (by simp : ¬(0 < 0 ∧ false = true))]
    rw [hresp]
    dsimp only
    rw [if_neg (by omega : ¬ status ≥ 500)]
    rw [if_pos (by omega : status ≥ 400)]
    rw [if_neg (by omega : ¬ 0 < 0)]

/-- Witness for `retry_budget`: `maxRetries = 3` and a constant-503
server give 4 attempts with waits 1, 2, 4; a 404 server gives one
attempt and the body text in the error. -/
theorem retry_budget_witness :
    doQueryRequestGo false 3
      ((fun _ => .resp 503 "" "" (.error "boom")) : Nat → HTTPAttempt Nat) =
      (4, [1, 2, 4], .failed (some (.server 503))) ∧
    doQueryRequestGo false 3
      ((fun _ => .resp 404 "" "nope" (.ok [])) : Nat → HTTPAttempt Nat) =
      (1, [], .apiErr 404 "nope") := by
  constructor
  · exact (retry_budget 3 (fun _ => .resp 503 "" "" (.error "boom"))
      (fun _ => 503) (fun _ => "") (fun _ => "") (fun _ => .error "boom")
      (by norm_num)).1 (fun a => rfl) (fun a => by norm_num)
  · exact (retry_budget 3 (fun _ => .resp 404 "" "nope" (.ok []))
      (fun _ => 404) (fun _ => "") (fun _ => "nope") (fun _ => .ok [])
      (by norm_num)).2 404 "" "nope" (.ok []) rfl (by norm_num) (by norm_num)

/-- The batch page loop against the honest mock server, from page
boundary `k`: it terminates with `K > k` total requests, having
accumulated the prefix `R.take (min (K * pageSize) total)`, where either
the final request still started inside the data (`(K-1)*pageSize <
total`) or it was the very first request, and where the accumulated
prefix is everything or has reached the limit. -/
lemma queryLoop_mock {α ε : Type} (R : List α) (qs : String) (ps L : Int) (hps : 0 < ps) :
    ∀ (fuel k : Nat),
      (k = 0 ∨ k * ps.toNat < R.length) →
      R.length + 1 ≤ fuel + k * ps.toNat →
      ∃ K : Nat,
        queryLoop ((mockFetch R) : String → Int → Int → Except ε (List α × ChunkInfo))
            qs ps L false fuel ((k * ps.toNat : Nat) : Int) (R.take (k * ps.toNat)) k =
          .ok (R.take (min (K * ps.toNat) R.length)) K ∧
        k < K ∧ (K = 1 ∨ (K - 1) * ps.toNat < R.length) ∧
        (min (K * ps.toNat) R.length = R.length ∨
          (0 < L ∧ L ≤ ((min (K * ps.toNat) R.length : Nat) : Int))) := by
  intro fuel
  induction fuel with
  | zero =>
    intro k hk hfuel
    exfalso
    rcases hk with rfl | hk <;> omega
  | succ f ih =>
    intro k hk hfuel
    have hs1 : 1 ≤ ps.toNat := by omega
    have hoT : k * ps.toNat ≤ R.length := by rcases hk with rfl | hk <;> omega
    rw [queryLoop]
    rw [if_neg (by simp : ¬(false = true))]
    have hmock : (mockFetch R (pageBody qs ps ((k * ps.toNat : Nat) : Int)) ps
        ((k * ps.toNat : Nat) : Int) : Except ε (List α × ChunkInfo)) =
        .ok ((R.drop (k * ps.toNat)).take ps.toNat,
          ⟨((k * ps.toNat : Nat) : Int),
           ((k * ps.toNat : Nat) : Int) + (((R.drop (k * ps.toNat)).take ps.toNat).length : Int),
           (R.length : Int),
           decide (((k * ps.toNat : Nat) : Int) +
             (((R.drop (k * ps.toNat)).take ps.toNat).length : Int) ≥ (R.length : Int))⟩) := rfl
    rw [hmock]
    dsimp only
    set p := (R.drop (k * ps.toNat)).take ps.toNat with hp
    have hplen : p.length = min ps.toNat (R.length - k * ps.toNat) := by
      rw [hp]; simp [List.length_take, List.length_drop]
    have hacc : R.take (k * ps.toNat) ++ p = R.take (k * ps.toNat + ps.toNat) := by
      rw [hp]; exact (List.take_add R (k * ps.toNat) ps.toNat).symm
    rw [hacc]
    by_cases hstop : R.length ≤ k * ps.toNat + ps.toNat
    · -- final page: IsLast (equivalently, short page) fires
      have hplenA : p.length = R.length - k * ps.toNat := by rw [hplen]; omega
      rw [if_pos (by
        rw [hplenA]
        have hge : (((k * ps.toNat : Nat) : Int) + ((R.length - k * ps.toNat : Nat) : Int) ≥
            ((R.length : Nat) : Int)) := by
          rw [ge_iff_le, ← Nat.cast_add, Nat.cast_le]; omega
        rw [decide_eq_true hge, Bool.true_or])]
      refine ⟨k + 1, ?_, Nat.lt_succ_self k, ?_, Or.inl (by rw [Nat.succ_mul]; omega)⟩
      · have hminT : min ((k + 1) * ps.toNat) R.length = R.length := by
          rw [Nat.succ_mul]; omega
        rw [hminT, List.take_of_length_le hstop, List.take_length]
      · rcases hk with rfl | hk
        · exact Or.inl rfl
        · exact Or.inr (by simpa using hk)
    · -- full, non-final page
      have hplenB : p.length = ps.toNat := by rw [hplen]; omega
      rw [if_neg (by
        rw [hplenB]
        have h1 : ¬ (((k * ps.toNat : Nat) : Int) + ((ps.toNat : Nat) : Int) ≥
            ((R.length : Nat) : Int)) := by
          rw [ge_iff_le, ← Nat.cast_add, Nat.cast_le]; omega
        have h2 : ¬ (((ps.toNat : Nat) : Int) < ps) := by
          rw [Int.toNat_of_nonneg (le_of_lt hps)]
          omega
        rw [decide_eq_false h1, decide_eq_false h2]
        simp)]
      have hlen2 : (R.take (k * ps.toNat + ps.toNat)).length = k * ps.toNat + ps.toNat := by
        simp [List.length_take]; omega
      rw [hlen2]
      by_cases hlim : 0 < L ∧ ((k * ps.toNat + ps.toNat : Nat) : Int) ≥ L
      · rw [if_pos hlim]
        refine ⟨k + 1, ?_, Nat.lt_succ_self k, ?_, Or.inr ?_⟩
        · have hmin : min ((k + 1) * ps.toNat) R.length = k * ps.toNat + ps.toNat := by
            rw [Nat.succ_mul]; omega
          rw [hmin]
        · rcases hk with rfl | hk
          · exact Or.inl rfl
          · exact Or.inr (by simpa using hk)
        · have hmin : min ((k + 1) * ps.toNat) R.length = k * ps.toNat + ps.toNat := by
            rw [Nat.succ_mul]; omega
          rw [hmin]
          exact ⟨hlim.1, hlim.2⟩
      · rw [if_neg hlim]
        rw [hplenB]
        rw [show ((k * ps.toNat : Nat) : Int) + ((ps.toNat : Nat) : Int) =
          ((k * ps.toNat + ps.toNat : Nat) : Int) from (Nat.cast_add _ _).symm]
        have hk' : k + 1 = 0 ∨ (k + 1) * ps.toNat < R.length := by
          refine Or.inr ?_
          rw [Nat.succ_mul]; omega
        have hf' : R.length + 1 ≤ f + (k + 1) * ps.toNat := by
          rw [Nat.succ_mul]; omega
        have ih' := ih (k + 1) hk' hf'
        rw [Nat.succ_mul] at ih'
        rcases ih' with ⟨K, heq, hkK, hb, hl⟩
        exact ⟨K, heq, by omega, hb, hl⟩

/-- C1 (amended): against a mock server holding `R` records served in
pages, `Client.Query` returns exactly `min (total, limit)` records (all
of them when the limit is 0) in server order, issuing at least one and
at most `max 1 (ceil (total / pageSize))` page requests, where
`pageSize = min (chunk size, limit)` for a positive limit smaller than
the configured chunk size.  The `max 1` is the amendment: one request is
issued even when `total = 0`, while the claim's bound
`ceil(total/pageSize)` is 0 there (see
`batch_pagination_counterexample`). -/
theorem batch_pagination {α ε : Type} :
    ∀ (R : List α) (chunkCfg ps : Int) (obj : String) (q : Query) (fuel : Nat),
      0 < chunkCfg → 0 ≤ q.LimitValue →
      ps = (if 0 < q.LimitValue ∧ q.LimitValue < chunkCfg then q.LimitValue else chunkCfg) →
      R.length + 1 ≤ fuel →
      ∃ K : Nat,
        ClientQuery chunkCfg
            ((mockFetch R) : String → Int → Int → Except ε (List α × ChunkInfo))
            false obj q fuel =
          .ok (R.take (if q.LimitValue = 0 then R.length
              else min q.LimitValue.toNat R.length)) K ∧
        1 ≤ K ∧ K ≤ max 1 ((R.length + ps.toNat - 1) / ps.toNat) := by
  intro R cfg ps obj q fuel hcfg hL0 hpsdef hfuel
  have hps : 0 < ps := by rw [hpsdef]; split <;> omega
  have hspos : 0 < ps.toNat := by omega
  have hm := @queryLoop_mock α ε R (prepareQuery (GetObjectType obj) q).Build ps q.LimitValue
    hps fuel 0 (Or.inl rfl) (by omega)
  rw [Nat.zero_mul, Nat.cast_zero, List.take_zero] at hm
  rcases hm with ⟨K, heq, hK, hb, hl⟩
  refine ⟨K, ?_, by omega, ?_⟩
  · simp only [ClientQuery]
    rw [prepareQuery_LimitValue, ← hpsdef]
    rw [heq]
    dsimp only
    set m := min (K * ps.toNat) R.length with hmdef
    have hmT : m ≤ R.length := Nat.min_le_right _ _
    have hlenm : (R.take m).length = m := by
      rw [List.length_take]; omega
    rw [hlenm]
    have hcast : ((q.LimitValue.toNat : Nat) : Int) = q.LimitValue :=
      Int.toNat_of_nonneg hL0
    by_cases hL : q.LimitValue = 0
    · rw [if_neg (by rw [hL]; intro hcon; exact absurd hcon.1 (lt_irrefl 0))]
      rw [if_pos hL]
      rcases hl with hT | hLm
      · rw [hT]
      · exact absurd hLm.1 (by omega)
    · rw [if_neg hL]
      by_cases htrim : 0 < q.LimitValue ∧ (m : Int) > q.LimitValue
      · rw [if_pos htrim]
        rw [List.take_take]
        congr 1
        rcases hl with hT | ⟨hLpos, hLm⟩
        · rw [hT]
        · have h1 : q.LimitValue.toNat ≤ m := Int.toNat_le.mpr hLm
          rw [min_eq_left h1, min_eq_left (le_trans h1 hmT)]
      · rw [if_neg htrim]
        congr 1
        have hmL : (m : Int) ≤ q.LimitValue := by
          rcases lt_or_le q.LimitValue (m : Int) with hc | hc
          · exact absurd ⟨by omega, hc⟩ htrim
          · exact hc
        have h2 : m ≤ q.LimitValue.toNat := by
          rw [← hcast] at hmL
          exact Nat.cast_le.mp hmL
        rcases hl with hT | ⟨hLpos, hLm⟩
        · rw [hT] at h2 ⊢
          rw [min_eq_right h2]
        · have h1 : q.LimitValue.toNat ≤ m := Int.toNat_le.mpr hLm
          have hmeq : m = q.LimitValue.toNat := le_antisymm h2 h1
          rw [hmeq, min_eq_left (hmeq ▸ hmT)]
  · rcases hb with rfl | hb
    · exact le_max_left _ _
    · have hT1 : 1 ≤ R.length := by
        rcases Nat.eq_zero_or_pos R.length with h0 | h1
        · omega
        · exact h1
      have h1 : K - 1 ≤ (R.length - 1) / ps.toNat :=
        (Nat.le_div_iff_mul_le hspos).mpr (by omega)
      have h2 : (R.length + ps.toNat - 1) / ps.toNat = (R.length - 1) / ps.toNat + 1 := by
        rw [show R.length + ps.toNat - 1 = (R.length - 1) + ps.toNat from by omega,
          Nat.add_div_right _ hspos]
      rw [h2]
      exact le_trans (by omega) (le_max_right 1 ((R.length - 1) / ps.toNat + 1))

/-- C1 counterexample to the claim as stated: with `total = 0` (and
page size 5, no limit) the loop still issues 1 page request, but the
claimed bound `ceil(total/pageSize) = (0 + 5 - 1) / 5` is 0. -/
theorem batch_pagination_counterexample :
    ClientQuery 5 ((mockFetch ([] : List Nat)) :
        String → Int → Int → Except String (List Nat × ChunkInfo))
      false "genome" NewQuery 3 = .ok [] 1 ∧
    (List.length ([] : List Nat) + 5 - 1) / 5 = 0 :=
  ⟨rfl, rfl⟩

/-- Witness for `batch_pagination`: five records, chunk size 2, no
limit: all five records in order, within 1..3 requests. -/
theorem batch_pagination_witness :
    ∃ K : Nat,
      ClientQuery 2 ((mockFetch [10, 20, 30, 40, 50]) :
          String → Int → Int → Except String (List Nat × ChunkInfo))
        false "genome" NewQuery 6 = .ok [10, 20, 30, 40, 50] K ∧
      1 ≤ K ∧ K ≤ 3 := by
  obtain ⟨K, h1, h2, h3⟩ := @batch_pagination Nat String [10, 20, 30, 40, 50] 2 2 "genome"
    NewQuery 6 (by decide) (by decide) (by decide) (by decide)
  exact ⟨K, h1, h2, h3⟩

lemma getD_set_ne' {γ : Type} (l : List γ) (a b : Nat) (x : γ) (d : γ) (hab : a ≠ b) :
    (l.set a x).getD b d = l.getD b d := by
  simp [List.getD_eq_getElem?_getD, List.getElem?_set_ne hab]

lemma readStrSlice_congr (h h2 : Heap) (s : GoSlice)
    (hag : ∀ i, i < h.strArrays.length → h2.strArrays.getD i [] = h.strArrays.getD i [])
    (hwf : strSliceWFb h s = true) :
    readStrSlice h2 s = readStrSlice h s := by
  rcases s with ⟨arr, len⟩
  cases arr with
  | none => rfl
  | some i =>
    have hi : i < h.strArrays.length := by
      simpa [strSliceWFb] using hwf
    simp only [readStrSlice]
    rw [hag i hi]

lemma readFilterSlice_congr (h h2 : Heap) (s : GoSlice)
    (hag : ∀ i, i < h.filterArrays.length → h2.filterArrays.getD i [] = h.filterArrays.getD i [])
    (hwf : (match s.arr with
            | none => true
            | some i => decide (i < h.filterArrays.length)) = true) :
    readFilterSlice h2 s = readFilterSlice h s := by
  rcases s with ⟨arr, len⟩
  cases arr with
  | none => rfl
  | some i =>
    have hi : i < h.filterArrays.length := by simpa using hwf
    simp only [readFilterSlice]
    rw [hag i hi]

lemma readSortSlice_congr (h h2 : Heap) (s : GoSlice)
    (hag : ∀ i, i < h.sortArrays.length → h2.sortArrays.getD i [] = h.sortArrays.getD i [])
    (hwf : sortSliceWFb h s = true) :
    readSortSlice h2 s = readSortSlice h s := by
  rcases s with ⟨arr, len⟩
  cases arr with
  | none => rfl
  | some i =>
    have hi : i < h.sortArrays.length := by
      simpa [sortSliceWFb] using hwf
    simp only [readSortSlice]
    rw [hag i hi]

lemma resolve_congr_of_agree (h h2 : Heap) (q : GoQuery) (hwf : queryWFb h q = true)
    (hs : ∀ i, i < h.strArrays.length → h2.strArrays.getD i [] = h.strArrays.getD i [])
    (hf : ∀ i, i < h.filterArrays.length → h2.filterArrays.getD i [] = h.filterArrays.getD i [])
    (hso : ∀ i, i < h.sortArrays.length → h2.sortArrays.getD i [] = h.sortArrays.getD i []) :
    GoQuery.resolve h2 q = GoQuery.resolve h q := by
  have hwf' := hwf
  simp only [queryWFb, Bool.and_eq_true, filterSliceWFb] at hwf'
  obtain ⟨⟨⟨hwsel, hwfilTop, hwfilVals⟩, hwreq⟩, hwsort⟩ := hwf'
  unfold GoQuery.resolve
  rw [readStrSlice_congr h h2 q.SelectFields hs hwsel]
  rw [readStrSlice_congr h h2 q.RequiredFields hs hwreq]
  rw [readSortSlice_congr h h2 q.SortSpecs hso hwsort]
  rw [readFilterSlice_congr h h2 q.Filters hf hwfilTop]
  congr 1
  refine List.map_congr_left fun f hfmem => ?_
  unfold resolveFilter
  rw [List.all_eq_true] at hwfilVals
  rw [readStrSlice_congr h h2 f.Values hs (hwfilVals f hfmem)]

lemma cloneH_heap (h : Heap) (q : GoQuery) :
    (GoQuery.cloneH h q).1.strArrays =
      (h.strArrays ++ [readStrSlice h q.SelectFields]) ++
        [readStrSlice ((allocFilter (allocStr h (readStrSlice h q.SelectFields)).1
          (readFilterSlice (allocStr h (readStrSlice h q.SelectFields)).1 q.Filters)).1)
          q.RequiredFields] ∧
    (GoQuery.cloneH h q).1.filterArrays =
      h.filterArrays ++ [readFilterSlice (allocStr h (readStrSlice h q.SelectFields)).1 q.Filters] ∧
    (GoQuery.cloneH h q).1.sortArrays =
      h.sortArrays ++ [readSortSlice ((allocStr ((allocFilter
        (allocStr h (readStrSlice h q.SelectFields)).1
        (readFilterSlice (allocStr h (readStrSlice h q.SelectFields)).1 q.Filters)).1)
        (readStrSlice ((allocFilter (allocStr h (readStrSlice h q.SelectFields)).1
          (readFilterSlice (allocStr h (readStrSlice h q.SelectFields)).1 q.Filters)).1)
          q.RequiredFields)).1) q.SortSpecs] := by
  refine ⟨rfl, rfl, rfl⟩

lemma cloneH_arrs (h : Heap) (q : GoQuery) :
    (GoQuery.cloneH h q).2.SelectFields.arr = some h.strArrays.length ∧
    (GoQuery.cloneH h q).2.RequiredFields.arr = some (h.strArrays.length + 1) ∧
    (GoQuery.cloneH h q).2.Filters.arr = some h.filterArrays.length ∧
    (GoQuery.cloneH h q).2.SortSpecs.arr = some h.sortArrays.length := by
  refine ⟨rfl, ?_, rfl, rfl⟩
  simp [GoQuery.cloneH, allocStr, allocFilter]

lemma cloneH_strAgree (h : Heap) (q : GoQuery) :
    ∀ i, i < h.strArrays.length →
      (GoQuery.cloneH h q).1.strArrays.getD i [] = h.strArrays.getD i [] := by
  intro i hi
  rw [(cloneH_heap h q).1]
  rw [List.getD_append _ _ _ _ (by simp; omega), List.getD_append _ _ _ _ hi]

lemma cloneH_filterAgree (h : Heap) (q : GoQuery) :
    ∀ i, i < h.filterArrays.length →
      (GoQuery.cloneH h q).1.filterArrays.getD i [] = h.filterArrays.getD i [] := by
  intro i hi
  rw [(cloneH_heap h q).2.1]
  rw [List.getD_append _ _ _ _ hi]

lemma cloneH_sortAgree (h : Heap) (q : GoQuery) :
    ∀ i, i < h.sortArrays.length →
      (GoQuery.cloneH h q).1.sortArrays.getD i [] = h.sortArrays.getD i [] := by
  intro i hi
  rw [(cloneH_heap h q).2.2]
  rw [List.getD_append _ _ _ _ hi]

lemma cloneH_lengths (h : Heap) (q : GoQuery) :
    (GoQuery.cloneH h q).1.strArrays.length = h.strArrays.length + 2 ∧
    (GoQuery.cloneH h q).1.filterArrays.length = h.filterArrays.length + 1 ∧
    (GoQuery.cloneH h q).1.sortArrays.length = h.sortArrays.length + 1 := by
  obtain ⟨h1, h2, h3⟩ := cloneH_heap h q
  rw [h1, h2, h3]
  simp

lemma writeStrElem_getD (h2 : Heap) (t : GoSlice) (a i : Nat) (v : String)
    (ht : t.arr = some a) :
    ∀ j, j ≠ a → (writeStrElem h2 t i v).strArrays.getD j [] = h2.strArrays.getD j [] := by
  intro j hj
  simp only [writeStrElem, ht]
  exact getD_set_ne' _ a j _ _ (fun hc => hj hc.symm)

lemma writeStrElem_filterArrays (h2 : Heap) (t : GoSlice) (i : Nat) (v : String) :
    (writeStrElem h2 t i v).filterArrays = h2.filterArrays := by
  rcases t with ⟨arr, len⟩
  cases arr <;> rfl

lemma writeStrElem_sortArrays (h2 : Heap) (t : GoSlice) (i : Nat) (v : String) :
    (writeStrElem h2 t i v).sortArrays = h2.sortArrays := by
  rcases t with ⟨arr, len⟩
  cases arr <;> rfl

lemma writeFilterElem_getD (h2 : Heap) (t : GoSlice) (a i : Nat) (f : GoFilter)
    (ht : t.arr = some a) :
    ∀ j, j ≠ a → (writeFilterElem h2 t i f).filterArrays.getD j [] =
      h2.filterArrays.getD j [] := by
  intro j hj
  simp only [writeFilterElem, ht]
  exact getD_set_ne' _ a j _ _ (fun hc => hj hc.symm)

lemma writeFilterElem_strArrays (h2 : Heap) (t : GoSlice) (i : Nat) (f : GoFilter) :
    (writeFilterElem h2 t i f).strArrays = h2.strArrays := by
  rcases t with ⟨arr, len⟩
  cases arr <;> rfl

lemma writeFilterElem_sortArrays (h2 : Heap) (t : GoSlice) (i : Nat) (f : GoFilter) :
    (writeFilterElem h2 t i f).sortArrays = h2.sortArrays := by
  rcases t with ⟨arr, len⟩
  cases arr <;> rfl

lemma writeSortElem_getD (h2 : Heap) (t : GoSlice) (a i : Nat) (sp : SortSpec)
    (ht : t.arr = some a) :
    ∀ j, j ≠ a → (writeSortElem h2 t i sp).sortArrays.getD j [] =
      h2.sortArrays.getD j [] := by
  intro j hj
  simp only [writeSortElem, ht]
  exact getD_set_ne' _ a j _ _ (fun hc => hj hc.symm)

lemma writeSortElem_strArrays (h2 : Heap) (t : GoSlice) (i : Nat) (sp : SortSpec) :
    (writeSortElem h2 t i sp).strArrays = h2.strArrays := by
  rcases t with ⟨arr, len⟩
  cases arr <;> rfl

lemma writeSortElem_filterArrays (h2 : Heap) (t : GoSlice) (i : Nat) (sp : SortSpec) :
    (writeSortElem h2 t i sp).filterArrays = h2.filterArrays := by
  rcases t with ⟨arr, len⟩
  cases arr <;> rfl

/-- C5 (amended): `Clone` copies the select-field, filter,
required-field and sort-spec lists into fresh backing arrays, so the
clone itself, element writes through any of those four lists on the
clone, and every mutator applied to the clone leave the original query's
observable state (its resolved value, hence its `Build()` output)
unchanged; but — the amendment — the `Values` list inside an `in` filter
is shared between clone and original (`copy` copies the `Filter` structs
with their slice headers), so writing through the clone's in-filter
value list does change the original: see `clone_shares_in_values`. -/
theorem clone_partial_independence :
    ∀ (h : Heap) (q : GoQuery), queryWFb h q = true →
      GoQuery.resolve (GoQuery.cloneH h q).1 q = GoQuery.resolve h q ∧
      (∀ i v, GoQuery.resolve
          (writeStrElem (GoQuery.cloneH h q).1 (GoQuery.cloneH h q).2.SelectFields i v) q =
        GoQuery.resolve h q) ∧
      (∀ i v, GoQuery.resolve
          (writeStrElem (GoQuery.cloneH h q).1 (GoQuery.cloneH h q).2.RequiredFields i v) q =
        GoQuery.resolve h q) ∧
      (∀ i f, GoQuery.resolve
          (writeFilterElem (GoQuery.cloneH h q).1 (GoQuery.cloneH h q).2.Filters i f) q =
        GoQuery.resolve h q) ∧
      (∀ i sp, GoQuery.resolve
          (writeSortElem (GoQuery.cloneH h q).1 (GoQuery.cloneH h q).2.SortSpecs i sp) q =
        GoQuery.resolve h q) ∧
      (∀ fields, GoQuery.resolve
          (GoQuery.selectH (GoQuery.cloneH h q).1 (GoQuery.cloneH h q).2 fields).1 q =
        GoQuery.resolve h q) ∧
      (∀ field value, GoQuery.resolve
          (GoQuery.eqH (GoQuery.cloneH h q).1 (GoQuery.cloneH h q).2 field value).1 q =
        GoQuery.resolve h q) ∧
      (∀ field values, GoQuery.resolve
          (GoQuery.inH (GoQuery.cloneH h q).1 (GoQuery.cloneH h q).2 field values).1 q =
        GoQuery.resolve h q) ∧
      (∀ fields, GoQuery.resolve
          (GoQuery.requiredH (GoQuery.cloneH h q).1 (GoQuery.cloneH h q).2 fields).1 q =
        GoQuery.resolve h q) ∧
      (∀ field descending, GoQuery.resolve
          (GoQuery.sortH (GoQuery.cloneH h q).1 (GoQuery.cloneH h q).2 field descending).1 q =
        GoQuery.resolve h q) ∧
      (∀ keyword, GoQuery.resolve
          (GoQuery.withKeywordH (GoQuery.cloneH h q).1 (GoQuery.cloneH h q).2 keyword).1 q =
        GoQuery.resolve h q) ∧
      (∀ n, GoQuery.resolve
          (GoQuery.limitH (GoQuery.cloneH h q).1 (GoQuery.cloneH h q).2 n).1 q =
        GoQuery.resolve h q) := by
  intro h q hwf
  obtain ⟨hselA, hreqA, hfilA, hsortA⟩ := cloneH_arrs h q
  obtain ⟨hLs, hLf, hLo⟩ := cloneH_lengths h q
  have hsA := cloneH_strAgree h q
  have hfA := cloneH_filterAgree h q
  have hoA := cloneH_sortAgree h q
  have hclone : GoQuery.resolve (GoQuery.cloneH h q).1 q = GoQuery.resolve h q :=
    resolve_congr_of_agree h _ q hwf hsA hfA hoA
  refine ⟨hclone, ?_, ?_, ?_, ?_, ?_, ?_, ?_, ?_, ?_, fun _ => hclone, fun _ => hclone⟩
  · intro i v
    refine resolve_congr_of_agree h _ q hwf ?_ ?_ ?_
    · intro j hj
      rw [writeStrElem_getD _ _ h.strArrays.length i v hselA j (by omega)]
      exact hsA j hj
    · intro j hj
      rw [writeStrElem_filterArrays]
      exact hfA j hj
    · intro j hj
      rw [writeStrElem_sortArrays]
      exact hoA j hj
  · intro i v
    refine resolve_congr_of_agree h _ q hwf ?_ ?_ ?_
    · intro j hj
      rw [writeStrElem_getD _ _ (h.strArrays.length + 1) i v hreqA j (by omega)]
      exact hsA j hj
    · intro j hj
      rw [writeStrElem_filterArrays]
      exact hfA j hj
    · intro j hj
      rw [writeStrElem_sortArrays]
      exact hoA j hj
  · intro i f
    refine resolve_congr_of_agree h _ q hwf ?_ ?_ ?_
    · intro j hj
      rw [writeFilterElem_strArrays]
      exact hsA j hj
    · intro j hj
      rw [writeFilterElem_getD _ _ h.filterArrays.length i f hfilA j (by omega)]
      exact hfA j hj
    · intro j hj
      rw [writeFilterElem_sortArrays]
      exact hoA j hj
  · intro i sp
    refine resolve_congr_of_agree h _ q hwf ?_ ?_ ?_
    · intro j hj
      rw [writeSortElem_strArrays]
      exact hsA j hj
    · intro j hj
      rw [writeSortElem_filterArrays]
      exact hfA j hj
    · intro j hj
      rw [writeSortElem_getD _ _ h.sortArrays.length i sp hsortA j (by omega)]
      exact hoA j hj
  · intro fields
    refine resolve_congr_of_agree h _ q hwf ?_ ?_ ?_
    · intro j hj
      simp only [GoQuery.selectH, appendStr, allocStr]
      rw [List.getD_append _ _ _ _ (by omega)]
      exact hsA j hj
    · intro j hj
      simp only [GoQuery.selectH, appendStr, allocStr]
      exact hfA j hj
    · intro j hj
      simp only [GoQuery.selectH, appendStr, allocStr]
      exact hoA j hj
  · intro field value
    refine resolve_congr_of_agree h _ q hwf ?_ ?_ ?_
    · intro j hj
      simp only [GoQuery.eqH, appendFilter, allocFilter]
      exact hsA j hj
    · intro j hj
      simp only [GoQuery.eqH, appendFilter, allocFilter]
      rw [List.getD_append _ _ _ _ (by omega)]
      exact hfA j hj
    · intro j hj
      simp only [GoQuery.eqH, appendFilter, allocFilter]
      exact hoA j hj
  · intro field values
    refine resolve_congr_of_agree h _ q hwf ?_ ?_ ?_
    · intro j hj
      simp only [GoQuery.inH, appendFilter, allocFilter, allocStr]
      rw [List.getD_append _ _ _ _ (by omega)]
      exact hsA j hj
    · intro j hj
      simp only [GoQuery.inH, appendFilter, allocFilter, allocStr]
      rw [List.getD_append _ _ _ _ (by omega)]
      exact hfA j hj
    · intro j hj
      simp only [GoQuery.inH, appendFilter, allocFilter, allocStr]
      exact hoA j hj
  · intro fields
    refine resolve_congr_of_agree h _ q hwf ?_ ?_ ?_
    · intro j hj
      simp only [GoQuery.requiredH, appendStr, allocStr]
      rw [List.getD_append _ _ _ _ (by omega)]
      exact hsA j hj
    · intro j hj
      simp only [GoQuery.requiredH, appendStr, allocStr]
      exact hfA j hj
    · intro j hj
      simp only [GoQuery.requiredH, appendStr, allocStr]
      exact hoA j hj
  · intro field descending
    refine resolve_congr_of_agree h _ q hwf ?_ ?_ ?_
    · intro j hj
      simp only [GoQuery.sortH, appendSort, allocSort]
      exact hsA j hj
    · intro j hj
      simp only [GoQuery.sortH, appendSort, allocSort]
      exact hfA j hj
    · intro j hj
      simp only [GoQuery.sortH, appendSort, allocSort]
      rw [List.getD_append _ _ _ _ (by omega)]
      exact hoA j hj

/-- C5 counterexample to the claim as stated: after
`q := NewQuery().In("status", "a", "b")` and `c := q.Clone()`, the
element write `c.Filters[0].Values[0] = "z"` changes the *original*
query's `Build()` output from `in(status,(a,b))` to `in(status,(z,b))` —
the clone shares the in-filter value list's backing storage with the
original. -/
theorem clone_shares_in_values :
    (GoQuery.resolve c5Step2.1 c5Step1.2).Build = "in(status,(a,b))" ∧
    (GoQuery.resolve c5Heap3 c5Step1.2).Build = "in(status,(z,b))" :=
  ⟨rfl, rfl⟩

/-- Witness for `clone_partial_independence` at the concrete state of
the aliasing scenario: a select-field element write on the clone leaves
the original's resolved value unchanged. -/
theorem clone_partial_independence_witness :
    GoQuery.resolve
        (writeStrElem (GoQuery.cloneH c5Step1.1 c5Step1.2).1
          (GoQuery.cloneH c5Step1.1 c5Step1.2).2.SelectFields 0 "z") c5Step1.2 =
      GoQuery.resolve c5Step1.1 c5Step1.2 :=
  ((clone_partial_independence c5Step1.1 c5Step1.2 (by decide)).2.1) 0 "z"

end BVBRC
